import Mathlib

/-!
Verification of the history synchronization and statistics engine of the
lottery data manager (`src/data_manager.py`, configuration in `src/config.py`).

The Python code is shallowly embedded: draw records become a Lean structure,
the in-memory store `self.data` becomes a `List Record` threaded explicitly,
network fetches become function-valued parameters (one call per time unit),
and "today" (`datetime.now()`) becomes an explicit `Date` parameter.
Operations that can raise in Python return `Option`.
-/

namespace DataManager

/-- One draw record, as stored in `self.data`.  In the Python code a record is
a JSON dict; the fields used by the engine are `period` (compared as
`str(item['period'])`, so modelled as a `String`), `lotteryDate`,
`drawNumberSize` (a list of integers; an absent field behaves as `[]` via
`item.get('drawNumberSize', [])`), and `superPrizeNo` (optional: `none`
models an absent key, which `item.get('superPrizeNo', 0)` turns into `0`). -/
structure Record where
  period : String
  lotteryDate : String
  drawNumberSize : List Int
  superPrizeNo : Option Int
deriving DecidableEq, Repr

/-- The body of the merge loop of `DataManager._merge_data` (lines 135-140):
`existing` is the set `existing_periods`, computed once from the store before
the loop and never extended while the loop appends.  Returns the updated
store and the running `count`. -/
def mergeLoop (existing : List String) (data : List Record) (count : Nat) :
    List Record → List Record × Nat
  | [] => (data, count)
  | item :: rest =>
    if item.period ∈ existing then
      mergeLoop existing data count rest
    else
      mergeLoop existing (data ++ [item]) (count + 1) rest

/-- `DataManager._merge_data(new_items)` (lines 133-143): on an empty input
return 0 without touching the store; otherwise append every item whose
`period` is not among the store's periods as snapshotted before the loop.
Returns the new store and the returned `count`. -/
def mergeData (data : List Record) (newItems : List Record) :
    List Record × Nat :=
  if newItems = [] then (data, 0)
  else mergeLoop (data.map (fun r => r.period)) data 0 newItems

/-- The periods of a store, as the strings `_merge_data` compares. -/
def periods (data : List Record) : List String :=
  data.map (fun r => r.period)

/-- The store satisfies the key-uniqueness invariant: no two records share a
`period` (string-compared). -/
def NoDupPeriods (data : List Record) : Prop :=
  data.Pairwise (fun a b => a.period ≠ b.period)

instance (data : List Record) : Decidable (NoDupPeriods data) := by
  unfold NoDupPeriods; infer_instance

/-- `mergeLoop` with a fixed `existing` set is exactly: append the items whose
period is not in `existing`, and add their number to the count. -/
theorem mergeLoop_eq (existing : List String) (items : List Record) :
    ∀ (data : List Record) (count : Nat),
    mergeLoop existing data count items =
      (data ++ items.filter (fun i => i.period ∉ existing),
       count + (items.filter (fun i => i.period ∉ existing)).length) := by
  induction items with
  | nil => intro data count; simp [mergeLoop]
  | cons item rest ih =>
    intro data count
    by_cases h : item.period ∈ existing
    · simp [mergeLoop, h, ih]
    · simp [mergeLoop, h, ih, List.append_assoc]
      omega

/-- `_merge_data` appends exactly the candidates whose period was absent from
the store's snapshot of periods, and returns their number. -/
theorem mergeData_eq (data newItems : List Record) :
    mergeData data newItems =
      (data ++ newItems.filter (fun i => i.period ∉ periods data),
       (newItems.filter (fun i => i.period ∉ periods data)).length) := by
  unfold mergeData
  by_cases h : newItems = []
  · simp [h]
  · simp [h, mergeLoop_eq, periods]

/-- A sequence of merge operations, as performed by the synchronizer and the
importer: each batch goes through `_merge_data` in turn. -/
def mergeAll (data : List Record) (batches : List (List Record)) : List Record :=
  batches.foldl (fun d b => (mergeData d b).1) data

theorem periods_append (S T : List Record) :
    periods (S ++ T) = periods S ++ periods T := by
  simp [periods]

/-- One merge of a batch with pairwise-distinct periods preserves the
key-uniqueness invariant. -/
theorem mergeData_noDup (S C : List Record) (hS : NoDupPeriods S)
    (hC : C.Pairwise (fun a b => a.period ≠ b.period)) :
    NoDupPeriods (mergeData S C).1 := by
  rw [mergeData_eq]
  unfold NoDupPeriods at *
  rw [List.pairwise_append]
  refine ⟨hS, hC.sublist (List.filter_sublist C), ?_⟩
  intro a ha b hb
  have hbp : b.period ∉ periods S := by
    have := List.of_mem_filter hb
    simpa using this
  intro hab
  exact hbp (hab ▸ List.mem_map_of_mem (fun r => r.period) ha)

/-- Every candidate's period is present in the store after merging it. -/
theorem mergeData_period_mem (S C : List Record) (i : Record) (hi : i ∈ C) :
    i.period ∈ periods (mergeData S C).1 := by
  rw [mergeData_eq, periods_append]
  by_cases h : i.period ∈ periods S
  · exact List.mem_append_left _ h
  · refine List.mem_append_right _ ?_
    have : i ∈ C.filter (fun j => j.period ∉ periods S) := by
      simp [List.mem_filter, hi, h]
    exact List.mem_map_of_mem (fun r => r.period) this

/-- C2 (confirmed): merge is idempotent.  Merging the same candidate set a
second time returns `0` and leaves the store (hence its record count)
unchanged. -/
theorem merge_idempotent (S C : List Record) :
    (mergeData (mergeData S C).1 C).2 = 0 ∧
    (mergeData (mergeData S C).1 C).1 = (mergeData S C).1 ∧
    (mergeData (mergeData S C).1 C).1.length = (mergeData S C).1.length := by
  have hfil : C.filter (fun i => i.period ∉ periods (mergeData S C).1) = [] := by
    rw [List.filter_eq_nil_iff]
    intro i hi
    simpa using mergeData_period_mem S C i hi
  rw [mergeData_eq (mergeData S C).1 C, hfil]
  simp

/-- C9 (confirmed): merge is append-only.  The pre-existing records remain an
unchanged prefix of the store, and the new length is the old length plus the
returned added count. -/
theorem merge_append_only (S C : List Record) :
    (mergeData S C).1.take S.length = S ∧
    (mergeData S C).1.length = S.length + (mergeData S C).2 := by
  rw [mergeData_eq]
  constructor
  · simp
  · simp

/-- C1 counterexample: merging a batch that repeats a period internally into
an empty store (which trivially satisfies the invariant) produces a store
with two records sharing period `"001"`. -/
theorem merge_uniqueness_cex :
    NoDupPeriods ([] : List Record) ∧
    ¬ NoDupPeriods
      (mergeData []
        [⟨"001", "2024-01-01", [1], none⟩,
         ⟨"001", "2024-01-01", [2], none⟩]).1 := by
  decide

/-- C1 (amended): after any sequence of merges in which every candidate batch
has pairwise-distinct periods, a store that satisfied the key-uniqueness
invariant still satisfies it: no two records share a `period`
(string-compared). -/
theorem merge_uniqueness_amended (S : List Record)
    (batches : List (List Record)) (hS : NoDupPeriods S)
    (hb : ∀ b ∈ batches, b.Pairwise (fun a c => a.period ≠ c.period)) :
    NoDupPeriods (mergeAll S batches) := by
  induction batches generalizing S with
  | nil => simpa [mergeAll] using hS
  | cons b bs ih =>
    have step := mergeData_noDup S b hS (hb b (List.mem_cons_self b bs))
    have htail : ∀ c ∈ bs, c.Pairwise (fun a d => a.period ≠ d.period) :=
      fun c hc => hb c (List.mem_cons_of_mem b hc)
    simpa [mergeAll] using ih (mergeData S b).1 step htail

/-- C1 amended witness: a concrete run of two singleton batches keeps the
invariant. -/
theorem merge_uniqueness_amended_witness :
    NoDupPeriods
      (mergeAll []
        [[⟨"001", "2024-01-01", [1], none⟩],
         [⟨"002", "2024-01-02", [2], none⟩]]) :=
  merge_uniqueness_amended []
    [[⟨"001", "2024-01-01", [1], none⟩],
     [⟨"002", "2024-01-02", [2], none⟩]]
    (by decide) (by decide)

/-! ### Calendar dates

`datetime` values in the Python code always sit at midnight except `today =
datetime.now()`; since every comparison is `pointer ≤/> today` with `pointer`
at midnight, comparing calendar dates lexicographically is faithful for any
time of day. -/

structure Date where
  year : Nat
  month : Nat
  day : Nat
deriving DecidableEq, Repr

/-- Lexicographic date comparison, the order `datetime` uses. -/
def dateLE (a b : Date) : Bool :=
  if a.year = b.year then
    if a.month = b.month then decide (a.day ≤ b.day)
    else decide (a.month < b.month)
  else decide (a.year < b.year)

/-- Gregorian leap year, as `datetime` implements it. -/
def isLeap (y : Nat) : Bool :=
  y % 4 = 0 && (y % 100 != 0 || y % 400 = 0)

def daysInMonth (y m : Nat) : Nat :=
  if m = 2 then (if isLeap y then 29 else 28)
  else if m = 4 ∨ m = 6 ∨ m = 9 ∨ m = 11 then 30
  else 31

/-- `d + timedelta(days=1)`. -/
def addDay (d : Date) : Date :=
  if d.day < daysInMonth d.year d.month then ⟨d.year, d.month, d.day + 1⟩
  else if d.month < 12 then ⟨d.year, d.month + 1, 1⟩
  else ⟨d.year + 1, 1, 1⟩

/-- `d - timedelta(days=1)`. -/
def subDay (d : Date) : Date :=
  if 1 < d.day then ⟨d.year, d.month, d.day - 1⟩
  else if 1 < d.month then ⟨d.year, d.month - 1, daysInMonth d.year (d.month - 1)⟩
  else ⟨d.year - 1, 12, 31⟩

/-- `d - timedelta(days=n)`. -/
def subDays (d : Date) : Nat → Date
  | 0 => d
  | n + 1 => subDay (subDays d n)

def pad2 (n : Nat) : String :=
  if n < 10 then "0" ++ toString n else toString n

def pad4 (n : Nat) : String :=
  if n < 10 then "000" ++ toString n
  else if n < 100 then "00" ++ toString n
  else if n < 1000 then "0" ++ toString n
  else toString n

/-- `strftime("%Y-%m")`. -/
def formatYM (d : Date) : String := pad4 d.year ++ "-" ++ pad2 d.month

/-- `strftime("%Y-%m-%d")`. -/
def formatYMD (d : Date) : String := formatYM d ++ "-" ++ pad2 d.day

/-- Split a character list at every `'-'` (the behaviour of splitting a
string on `"-"`). -/
def splitDashAux : List Char → List (List Char)
  | [] => [[]]
  | c :: rest =>
    match splitDashAux rest with
    | [] => [[c]]
    | p :: ps => if c = '-' then [] :: p :: ps else (c :: p) :: ps

def splitDash (s : String) : List String :=
  (splitDashAux s.toList).map String.mk

/-- The string is non-empty and all characters are decimal digits. -/
def isDigitStr (s : String) : Bool :=
  !s.toList.isEmpty && s.toList.all Char.isDigit

/-- `int(s)` on a digit string. -/
def digitsToNat (s : String) : Nat :=
  s.toList.foldl (fun acc c => acc * 10 + (c.toNat - 48)) 0

/-- `s[:n]`. -/
def strTake (s : String) (n : Nat) : String := String.mk (s.toList.take n)

/-- `datetime.strptime(s, "%Y-%m-%d")`, `none` on `ValueError`.  `strptime`
validates the real calendar (month 1-12, day within the month). -/
def parseDateISO (s : String) : Option Date :=
  match splitDash s with
  | [ys, ms, ds] =>
    if isDigitStr ys && isDigitStr ms && isDigitStr ds then
      let y := digitsToNat ys; let m := digitsToNat ms; let d := digitsToNat ds
      if 1 ≤ y ∧ 1 ≤ m ∧ m ≤ 12 ∧ 1 ≤ d ∧ d ≤ daysInMonth y m then
        some ⟨y, m, d⟩
      else none
    else none
  | _ => none

/-- `datetime.strptime(s, "%Y-%m")`, `none` on `ValueError`; the day defaults
to 1. -/
def parseYM (s : String) : Option Date :=
  match splitDash s with
  | [ys, ms] =>
    if isDigitStr ys && isDigitStr ms then
      let y := digitsToNat ys; let m := digitsToNat ms
      if 1 ≤ y ∧ 1 ≤ m ∧ m ≤ 12 then some ⟨y, m, 1⟩ else none
    else none
  | _ => none

/-- `current_pointer.replace(year=y+1, month=1)` / `replace(month=m+1)`
(lines 78-80).  `replace` raises `ValueError` when the kept day does not
exist in the target month, which aborts the sync: modelled as `none`. -/
def monthAdvance (p : Date) : Option Date :=
  let y := if p.month = 12 then p.year + 1 else p.year
  let m := if p.month = 12 then 1 else p.month + 1
  if p.day ≤ daysInMonth y m then some ⟨y, m, p.day⟩ else none

def monthIdx (d : Date) : Nat := d.year * 12 + d.month

/-! ### Sorting by period

`self.data.sort(key=lambda x: str(x['period']), reverse=True)` is a stable
descending sort on the period string.  A stable sort under a total preorder
has a unique result, so stable insertion sort is a faithful model. -/

/-- Insert `r` (originally to the left of the whole list) into an already
descending-sorted list, keeping stability: `r` goes before the first element
whose period is `≤ r.period`. -/
def insertDesc (r : Record) : List Record → List Record
  | [] => [r]
  | x :: xs => if x.period ≤ r.period then r :: x :: xs else x :: insertDesc r xs

/-- Stable descending sort by `str(period)`. -/
def sortDesc : List Record → List Record
  | [] => []
  | r :: rest => insertDesc r (sortDesc rest)

/-! ### The monthly backfill synchronizer (`_fetch_normal_history`) -/

/-- The `while current_pointer <= today` loop of `_fetch_normal_history`
(lines 69-81).  `fetch` stands for `self._fetch_from_api(month=...)`;
`calls` records each month string requested, in order.  The fuel only bounds
the recursion; the caller supplies enough for the loop to reach
`pointer > today` on its own. -/
def normalLoop (fetch : String → List Record) (today : Date) :
    Nat → Date → List Record → List String →
    Option (List Record × List String)
  | 0, p, d, calls =>
    if dateLE p today then none else some (d, calls)
  | fuel + 1, p, d, calls =>
    if dateLE p today then
      let ms := formatYM p
      let d' := (mergeData d (fetch ms)).1
      match monthAdvance p with
      | none => none
      | some p' => normalLoop fetch today fuel p' d' (calls ++ [ms])
    else some (d, calls)

/-- `DataManager._fetch_normal_history` (lines 51-84).  `startCfg` is
`self.config['start_date']`; `today` is `datetime.now()`; `fetch m` is the
result of `self._fetch_from_api(month=m)`; `data` is `self.data` on entry.
Returns `none` when the Python code raises, otherwise
`(final store, returned count, month strings fetched in order)`.
The final store reflects `_finalize_data`'s descending re-sort; persistence
and statistics recomputation have no effect on the returned value. -/
def fetchNormalHistory (startCfg : String) (today : Date)
    (fetch : String → List Record) (data : List Record) :
    Option (List Record × Nat × List String) :=
  let startDate? : Option Date :=
    match data with
    | [] => parseYM startCfg
    | first :: _ =>
      match parseDateISO (strTake first.lotteryDate 10) with
      | some last => some (addDay last)
      | none => (parseYM startCfg).map addDay
  match startDate? with
  | none => none
  | some start =>
    if dateLE start today then
      match normalLoop fetch today (monthIdx today + 1 - monthIdx start)
          start data [] with
      | none => none
      | some (d, calls) => some (sortDesc d, d.length, calls)
    else some (data, 0, [])

/-- The month strings `normalLoop` requests, which depend only on the dates,
never on the fetched data. -/
def callsLoop (today : Date) : Nat → Date → List String → Option (List String)
  | 0, p, calls =>
    if dateLE p today then none else some calls
  | fuel + 1, p, calls =>
    if dateLE p today then
      match monthAdvance p with
      | none => none
      | some p' => callsLoop today fuel p' (calls ++ [formatYM p])
    else some calls

theorem normalLoop_calls (fetch : String → List Record) (today : Date) :
    ∀ (fuel : Nat) (p : Date) (d : List Record) (calls : List String),
    (normalLoop fetch today fuel p d calls).map (fun t => t.2) =
      callsLoop today fuel p calls := by
  intro fuel
  induction fuel with
  | zero =>
    intro p d calls
    by_cases h : dateLE p today <;> simp [normalLoop, callsLoop, h]
  | succ n ih =>
    intro p d calls
    by_cases h : dateLE p today
    · cases hadv : monthAdvance p <;>
        simp [normalLoop, callsLoop, h, hadv, ih]
    · simp [normalLoop, callsLoop, h]

/-- C7 (confirmed): a PERIODIC_BACKFILL sync from an empty store with
`start_date = "2024-01"` and today fixed at 2024-03-15 issues exactly the
three month-scoped fetches `"2024-01"`, `"2024-02"`, `"2024-03"`, in order,
whatever the fetcher returns. -/
theorem backfill_monthly_walk (fetch : String → List Record) :
    (fetchNormalHistory "2024-01" ⟨2024, 3, 15⟩ fetch []).map
      (fun t => t.2.2) = some ["2024-01", "2024-02", "2024-03"] := by
  have h1 : parseYM "2024-01" = some ⟨2024, 1, 1⟩ := by decide
  have hc : callsLoop ⟨2024, 3, 15⟩ 3 ⟨2024, 1, 1⟩ [] =
      some ["2024-01", "2024-02", "2024-03"] := by decide
  have hloop := normalLoop_calls fetch ⟨2024, 3, 15⟩ 3 ⟨2024, 1, 1⟩ [] []
  rw [hc] at hloop
  unfold fetchNormalHistory
  simp only [h1]
  have hfuel : monthIdx ⟨2024, 3, 15⟩ + 1 - monthIdx ⟨2024, 1, 1⟩ = 3 := by
    decide
  have hle : dateLE ⟨2024, 1, 1⟩ ⟨2024, 3, 15⟩ = true := by decide
  rw [hfuel, hle]
  cases hn : normalLoop fetch ⟨2024, 3, 15⟩ 3 ⟨2024, 1, 1⟩ [] [] with
  | none => rw [hn] at hloop; simp at hloop
  | some dc =>
    rw [hn] at hloop
    simpa using hloop

/-- C3 counterexample: with a non-empty store whose most recent record is
dated `9999-01-01` (so the computed start point is past today,
2024-03-15), the sync performs zero fetches and returns `0`, while the
store's total record count is `1`.  The claim says the returned value is the
total record count. -/
theorem sync_return_count_cex :
    (fetchNormalHistory "2008-01" ⟨2024, 3, 15⟩ (fun _ => [])
        [⟨"x", "9999-01-01", [1], none⟩]).map (fun t => t.2.1) = some 0 ∧
    (fetchNormalHistory "2008-01" ⟨2024, 3, 15⟩ (fun _ => [])
        [⟨"x", "9999-01-01", [1], none⟩]).map (fun t => t.1.length) =
      some 1 ∧
    (fetchNormalHistory "2008-01" ⟨2024, 3, 15⟩ (fun _ => [])
        [⟨"x", "9999-01-01", [1], none⟩]).map (fun t => t.2.2) =
      some [] := by
  decide

/-- C3 (amended): when the store is non-empty with a parseable most recent
`drawDate` and the computed start point (the day after it) is already past
today, the sync performs zero fetch requests and returns `0` — not the
store's record count — leaving the store untouched. -/
theorem sync_up_to_date_returns_zero (startCfg : String) (today : Date)
    (fetch : String → List Record) (first : Record) (rest : List Record)
    (last : Date)
    (hparse : parseDateISO (strTake first.lotteryDate 10) = some last)
    (hlate : dateLE (addDay last) today = false) :
    fetchNormalHistory startCfg today fetch (first :: rest) =
      some (first :: rest, 0, []) := by
  unfold fetchNormalHistory
  simp [hparse, hlate]

/-- C3 amended witness at the concrete counterexample input. -/
theorem sync_up_to_date_returns_zero_witness :
    fetchNormalHistory "2008-01" ⟨2024, 3, 15⟩ (fun _ => [])
        [⟨"x", "9999-01-01", [1], none⟩] =
      some ([⟨"x", "9999-01-01", [1], none⟩], 0, []) :=
  sync_up_to_date_returns_zero "2008-01" ⟨2024, 3, 15⟩ (fun _ => [])
    ⟨"x", "9999-01-01", [1], none⟩ [] ⟨9999, 1, 1⟩ (by decide) (by decide)

/-! ### Sorting lemmas -/

/-- The descending order on records that `sort(key=..., reverse=True)`
establishes: the left record's period is at least the right one's. -/
def periodGE (a b : Record) : Prop := b.period ≤ a.period

instance (a b : Record) : Decidable (periodGE a b) := by
  unfold periodGE; infer_instance

theorem insertDesc_perm (r : Record) (l : List Record) :
    List.Perm (insertDesc r l) (r :: l) := by
  induction l with
  | nil => simp [insertDesc]
  | cons x xs ih =>
    by_cases h : x.period ≤ r.period
    · simp [insertDesc, h]
    · simp only [insertDesc, if_neg h]
      exact (ih.cons x).trans (List.Perm.swap r x xs)

theorem sortDesc_perm (l : List Record) : List.Perm (sortDesc l) l := by
  induction l with
  | nil => simp [sortDesc]
  | cons x xs ih =>
    exact (insertDesc_perm x (sortDesc xs)).trans (ih.cons x)

theorem sortDesc_length (l : List Record) : (sortDesc l).length = l.length :=
  (sortDesc_perm l).length_eq

theorem insertDesc_pairwise (r : Record) (l : List Record)
    (hl : l.Pairwise periodGE) : (insertDesc r l).Pairwise periodGE := by
  induction l with
  | nil => simp [insertDesc, List.pairwise_singleton]
  | cons x xs ih =>
    by_cases h : x.period ≤ r.period
    · simp only [insertDesc, if_pos h]
      refine List.Pairwise.cons ?_ hl
      intro b hb
      rcases List.mem_cons.mp hb with rfl | hb'
      · exact h
      · exact le_trans ((List.pairwise_cons.mp hl).1 b hb') h
    · simp only [insertDesc, if_neg h]
      rcases List.pairwise_cons.mp hl with ⟨hx, hxs⟩
      refine List.Pairwise.cons ?_ (ih hxs)
      intro b hb
      rcases List.mem_cons.mp ((insertDesc_perm r xs).mem_iff.mp hb) with
        rfl | hb'
      · exact le_of_not_le h
      · exact hx b hb'

theorem sortDesc_pairwise (l : List Record) :
    (sortDesc l).Pairwise periodGE := by
  induction l with
  | nil => simp [sortDesc]
  | cons x xs ih => exact insertDesc_pairwise x (sortDesc xs) ih

/-- A stable sort leaves an already descending-sorted list unchanged. -/
theorem sortDesc_of_pairwise (l : List Record) (hl : l.Pairwise periodGE) :
    sortDesc l = l := by
  induction l with
  | nil => rfl
  | cons x xs ih =>
    rcases List.pairwise_cons.mp hl with ⟨hx, hxs⟩
    show insertDesc x (sortDesc xs) = x :: xs
    rw [ih hxs]
    cases xs with
    | nil => rfl
    | cons y ys =>
      have hyx : y.period ≤ x.period := hx y (List.mem_cons_self y ys)
      simp only [insertDesc]
      rw [if_pos hyx]

/-! ### The rolling high-frequency synchronizer (`_fetch_high_freq_history`) -/

/-- The day loop of `_fetch_high_freq_history` (lines 90-100): for
`i in range(keep_days)` fetch `today - i` days and merge.  `fetch` stands for
`self._fetch_from_api(date=...)`. -/
def hfAccum (fetch : String → List Record) (today : Date) (keepDays : Nat)
    (data : List Record) : List Record :=
  (List.range keepDays).foldl
    (fun d i => (mergeData d (fetch (formatYMD (subDays today i)))).1) data

/-- `DataManager._fetch_high_freq_history` (lines 86-109): run the day loop,
sort descending by period, truncate to `keep_days * 210` when longer, then
`_finalize_data` (which re-sorts) and return the record count. -/
def fetchHighFreqHistory (keepDays : Nat) (today : Date)
    (fetch : String → List Record) (data : List Record) :
    List Record × Nat :=
  let d := hfAccum fetch today keepDays data
  let limit := keepDays * 210
  let sorted := sortDesc d
  let trimmed := if limit < sorted.length then sorted.take limit else sorted
  let final := sortDesc trimmed
  (final, final.length)

/-- C6 (confirmed): with `keep_days = 5`, a high-frequency sync that
accumulates more than 1050 records leaves exactly 1050 records in the store:
the first 1050 of the descending sort of the accumulated records (a
permutation of them), and every kept record's period is
lexicographically at least every discarded record's period. -/
theorem rolling_retention (today : Date) (fetch : String → List Record)
    (data : List Record)
    (h : 1050 < (hfAccum fetch today 5 data).length) :
    (fetchHighFreqHistory 5 today fetch data).1 =
      (sortDesc (hfAccum fetch today 5 data)).take 1050 ∧
    (fetchHighFreqHistory 5 today fetch data).2 = 1050 ∧
    List.Perm (sortDesc (hfAccum fetch today 5 data))
      (hfAccum fetch today 5 data) ∧
    ∀ r ∈ (sortDesc (hfAccum fetch today 5 data)).take 1050,
      ∀ s ∈ (sortDesc (hfAccum fetch today 5 data)).drop 1050,
        s.period ≤ r.period := by
  have hlen : (sortDesc (hfAccum fetch today 5 data)).length =
      (hfAccum fetch today 5 data).length :=
    sortDesc_length _
  have hgt : 1050 < (sortDesc (hfAccum fetch today 5 data)).length := by
    omega
  have hpw := sortDesc_pairwise (hfAccum fetch today 5 data)
  have htake : ((sortDesc (hfAccum fetch today 5 data)).take 1050).Pairwise
      periodGE :=
    hpw.sublist (List.take_sublist 1050 _)
  have hfin : fetchHighFreqHistory 5 today fetch data =
      ((sortDesc (hfAccum fetch today 5 data)).take 1050,
       ((sortDesc (hfAccum fetch today 5 data)).take 1050).length) := by
    unfold fetchHighFreqHistory
    have h5 : (5 : Nat) * 210 = 1050 := by norm_num
    simp only [h5, if_pos hgt, sortDesc_of_pairwise _ htake]
  refine ⟨by rw [hfin], ?_, sortDesc_perm _, ?_⟩
  · rw [hfin]
    simp only [List.length_take]
    omega
  · intro r hr s hs
    have hsplit := hpw
    rw [← List.take_append_drop 1050 (sortDesc (hfAccum fetch today 5 data)),
      List.pairwise_append] at hsplit
    exact hsplit.2.2 r hr s hs

/-- 1051 records with strictly descending 4-character periods
(`"9999"` down to `"8949"`). -/
def bigData : List Record :=
  (List.range 1051).map (fun i => ⟨pad4 (9999 - i), "2024-01-01", [1], none⟩)

set_option maxRecDepth 20000 in
/-- C6 witness: a concrete high-frequency sync (empty fetches over a store of
1051 records) ends with exactly 1050 records. -/
theorem rolling_retention_witness :
    (fetchHighFreqHistory 5 ⟨2024, 1, 1⟩ (fun _ => []) bigData).2 = 1050 :=
  (rolling_retention ⟨2024, 1, 1⟩ (fun _ => []) bigData (by decide)).2.1

/-! ### The remote fetcher (`_fetch_from_api`)

The network interaction is modelled as an event: either the request (or
`resp.json()`, or `data.get` on a non-dict body) raises — every such
exception is caught by the `except` at line 129 — or a response with a
status code and a `content` container arrives. -/

/-- The shape of `data.get('content', {})`: a direct list of records, a
mapping from keys to record arrays, or anything else.  An absent `content`
key defaults to the empty mapping. -/
inductive ContentShape
  | list (items : List Record)
  | dict (entries : List (String × List Record))
  | other
deriving DecidableEq

/-- One observed network interaction. -/
inductive ApiEvent
  | exn
  | ok (status : Nat) (content : ContentShape)
deriving DecidableEq

/-- `content.get(api_key, [])` on the mapping. -/
def lookupEntry (key : String) :
    List (String × List Record) → Option (List Record)
  | [] => none
  | (k, v) :: rest => if k = key then some v else lookupEntry key rest

/-- `DataManager._fetch_from_api` (lines 111-131): status 200 with a dict
content extracts by the profile's `api_key` (empty when the key is absent);
status 200 with a list content returns it as-is; every other outcome —
non-200 status, exception, or another content shape — yields `[]`. -/
def fetchFromApi (apiKey : String) : ApiEvent → List Record
  | .exn => []
  | .ok status content =>
    if status = 200 then
      match content with
      | .dict entries => (lookupEntry apiKey entries).getD []
      | .list items => items
      | .other => []
    else []

/-- C8 (confirmed): the fetcher returns `[]` on an exception, a non-200
status, a content of unexpected shape, or a mapping missing the response
key; on a 200 response it returns a list content as-is and the array under
the response key of a dict content. -/
theorem api_fetch_shapes (apiKey : String) :
    fetchFromApi apiKey .exn = [] ∧
    (∀ (s : Nat) (c : ContentShape), s ≠ 200 →
      fetchFromApi apiKey (.ok s c) = []) ∧
    fetchFromApi apiKey (.ok 200 .other) = [] ∧
    (∀ entries, lookupEntry apiKey entries = none →
      fetchFromApi apiKey (.ok 200 (.dict entries)) = []) ∧
    (∀ items, fetchFromApi apiKey (.ok 200 (.list items)) = items) ∧
    (∀ entries l, lookupEntry apiKey entries = some l →
      fetchFromApi apiKey (.ok 200 (.dict entries)) = l) := by
  refine ⟨rfl, ?_, rfl, ?_, fun items => rfl, ?_⟩
  · intro s c hs
    simp [fetchFromApi, hs]
  · intro entries hnone
    simp [fetchFromApi, hnone]
  · intro entries l hsome
    simp [fetchFromApi, hsome]

/-- C8 witness instantiating every case at concrete inputs. -/
theorem api_fetch_shapes_witness :
    fetchFromApi "k" .exn = [] ∧
    fetchFromApi "k" (.ok 404 .other) = [] ∧
    fetchFromApi "k" (.ok 200 .other) = [] ∧
    fetchFromApi "k" (.ok 200 (.dict [])) = [] ∧
    fetchFromApi "k" (.ok 200 (.list [])) = [] ∧
    fetchFromApi "k" (.ok 200 (.dict [("k", [])])) = [] :=
  ⟨(api_fetch_shapes "k").1,
   (api_fetch_shapes "k").2.1 404 .other (by decide),
   (api_fetch_shapes "k").2.2.1,
   (api_fetch_shapes "k").2.2.2.1 [] (by decide),
   (api_fetch_shapes "k").2.2.2.2.1 [],
   (api_fetch_shapes "k").2.2.2.2.2 [("k", [])] [] (by decide)⟩

/-! ### The frequency index (`calculate_statistics`) -/

/-- The streams of numbers fed to `primary_counter` and `special_counter` by
`calculate_statistics` (lines 150-172): a record with an empty (or absent)
`drawNumberSize` is skipped outright; otherwise the profile class decides
which numbers go where.  A `Counter` is determined, for counting purposes,
by the stream of elements it receives. -/
def statsStreams (isHF hasSpecial : Bool) : List Record → List Int × List Int
  | [] => ([], [])
  | r :: rest =>
    let p := (statsStreams isHF hasSpecial rest).1
    let s := (statsStreams isHF hasSpecial rest).2
    if r.drawNumberSize.isEmpty then (p, s)
    else if isHF then
      (r.drawNumberSize ++ p,
       (if 0 < r.superPrizeNo.getD 0 then [r.superPrizeNo.getD 0] else [])
         ++ s)
    else if hasSpecial then
      (r.drawNumberSize.dropLast ++ p, [r.drawNumberSize.getLastD 0] ++ s)
    else
      (r.drawNumberSize ++ p, s)

/-- A record that contributes its special number `v` to the special counter
of a high-frequency profile: non-empty drawn numbers and a positive
`superPrizeNo` equal to `v`. -/
def hfSpecialQualifies (v : Int) (r : Record) : Bool :=
  !r.drawNumberSize.isEmpty && decide (0 < r.superPrizeNo.getD 0) &&
    decide (r.superPrizeNo.getD 0 = v)

/-- C5 counterexample: a record with empty `drawNumberSize` but
`superPrizeNo = 7 > 0` contributes nothing to the special counter — the
`if not raw_nums: continue` at line 156 skips it before the special-number
check — although the claim says every record with positive `superPrizeNo`
contributes one occurrence. -/
theorem hf_stats_cex :
    (statsStreams true true [⟨"1", "2024-01-01", [], some 7⟩]).2 = [] ∧
    (Record.superPrizeNo ⟨"1", "2024-01-01", [], some 7⟩).getD 0 = 7 := by
  decide

/-- C5 (amended): for a high-frequency profile, the primary counter counts
each value exactly as often as it occurs across the records' entire
`drawNumberSize` fields, and the special counter counts `v` once for every
record whose `drawNumberSize` is non-empty and whose `superPrizeNo` is
present, positive and equal to `v`; a record with empty or absent
`drawNumberSize` is skipped entirely, even when its `superPrizeNo` is
positive. -/
theorem hf_stats_amended (hs : Bool) (data : List Record) (v : Int) :
    (statsStreams true hs data).1.count v =
      (data.map (fun r => r.drawNumberSize.count v)).sum ∧
    (statsStreams true hs data).2.count v =
      data.countP (hfSpecialQualifies v) := by
  induction data with
  | nil => simp [statsStreams]
  | cons r rest ih =>
    by_cases hempty : r.drawNumberSize.isEmpty
    · have : r.drawNumberSize = [] := by
        simpa [List.isEmpty_iff] using hempty
      constructor
      · simp [statsStreams, hempty, ih.1, this]
      · simp [statsStreams, hempty, ih.2, List.countP_cons,
          hfSpecialQualifies, hempty]
    · by_cases hsp : 0 < r.superPrizeNo.getD 0
      · constructor
        · simp [statsStreams, hempty, List.count_append, ih.1]
        · by_cases hv : r.superPrizeNo.getD 0 = v
          · have hvpos : (0 : Int) < v := hv ▸ hsp
            simp [statsStreams, hempty, hsp, List.count_append, ih.2,
              List.countP_cons, hfSpecialQualifies, hv, hvpos,
              List.count_cons]
          · simp [statsStreams, hempty, hsp, List.count_append, ih.2,
              List.countP_cons, hfSpecialQualifies, hv, List.count_cons]
      · constructor
        · simp [statsStreams, hempty, List.count_append, ih.1]
        · simp [statsStreams, hempty, hsp, ih.2, List.countP_cons,
            hfSpecialQualifies]

/-! ### The CSV importer (`import_from_csv`)

The file is modelled as the list of rows the `csv.reader` yields, each row a
list of cell strings.  Opening/reading failures (the outer `except`, which
returns `(0, 0)`) are outside the row-processing logic modelled here. -/

/-- Python `str.strip()`: drop leading and trailing whitespace. -/
def strip (s : String) : String :=
  String.mk
    (((s.toList.dropWhile Char.isWhitespace).reverse.dropWhile
        Char.isWhitespace).reverse)

/-- `date_str.replace('/', '-')`. -/
def replaceSlash (s : String) : String :=
  String.mk (s.toList.map (fun c => if c = '/' then '-' else c))

/-- One iteration of the row loop of `import_from_csv` (lines 187-220):
`none` when the row is skipped (empty row, fewer than 20 columns, an
`IndexError` raised by `row[i]` for `i in range(6, 26)` when the row has
fewer than 26 columns — caught by the row-level `except` — or no digit cell
among columns 6-25), otherwise the record appended to `parsed_items`.
`sorted(draw_numbers)` is the stable ascending sort. -/
def parseRow (row : List String) : Option Record :=
  if row.isEmpty || row.length < 20 then none
  else if row.length < 26 then none
  else
    let period := strip (row.getD 1 "")
    let dateFmt := replaceSlash (strip (row.getD 2 ""))
    let draws := (((List.range' 6 20).map
        (fun i => strip (row.getD i ""))).filter isDigitStr).map
        (fun s => (digitsToNat s : Int))
    let sp : Int :=
      if 26 < row.length then
        if isDigitStr (strip (row.getD 26 "")) then
          (digitsToNat (strip (row.getD 26 "")) : Int)
        else 0
      else 0
    if draws.isEmpty then none
    else some ⟨period, dateFmt, draws.insertionSort (· ≤ ·), some sp⟩

/-- `DataManager.import_from_csv` (lines 177-233) after the header row is
consumed: parse every data row, merge the parsed records, finalize (re-sort
descending), and return
`(store, added, len(parsed_items) - added)`; with no parsed rows, `(0, 0)`
and an untouched store. -/
def importFromCSV (data : List Record) (rows : List (List String)) :
    List Record × Nat × Nat :=
  let parsed := (rows.drop 1).filterMap parseRow
  if parsed.isEmpty then (data, 0, 0)
  else
    let m := mergeData data parsed
    (sortDesc m.1, m.2, parsed.length - m.2)

/-- A well-formed 27-column data row: period `114000001`, date `2025/01/01`,
the numbers 20 down to 1 in columns 6-25, special number 7 in column 26. -/
def csvGoodRow : List String :=
  ["0", "114000001", "2025/01/01", "x", "x", "x",
   "20", "19", "18", "17", "16", "15", "14", "13", "12", "11",
   "10", "9", "8", "7", "6", "5", "4", "3", "2", "1", "7"]

/-- A header row, one well-formed row and one 10-column row. -/
def csvRows : List (List String) :=
  [["header"],
   csvGoodRow,
   ["a", "114000002", "2025/01/02", "x", "x", "x", "1", "2", "3", "4"]]

/-- C4 counterexample: importing a file with two data rows — one well-formed,
one with only 10 columns — into an empty store returns
`(added, skipped) = (1, 0)`: the malformed row was skipped but is not
counted in `skipped`, although the claim says every skipped data row is. -/
theorem csv_skip_count_cex :
    (importFromCSV [] csvRows).2.1 = 1 ∧
    (importFromCSV [] csvRows).2.2 = 0 ∧
    (csvRows.drop 1).length = 2 := by
  decide

/-- C4 (amended): `import_from_csv` returns `(added, skipped)` with
`added + skipped` equal to the number of rows that parsed successfully:
`skipped` counts only successfully parsed rows that were not added
(duplicate periods), while rows skipped for row-level parse errors
(malformed shape, too few columns, no numeric cells) are counted in
neither component. -/
theorem csv_skip_count_amended (data : List Record)
    (rows : List (List String)) :
    (importFromCSV data rows).2.1 + (importFromCSV data rows).2.2 =
      ((rows.drop 1).filterMap parseRow).length := by
  simp only [importFromCSV]
  by_cases h : ((rows.drop 1).filterMap parseRow).isEmpty
  · rw [if_pos h]
    simp [← List.drop_one, List.isEmpty_iff.mp h]
  · rw [if_neg h]
    have hle : (mergeData data ((rows.drop 1).filterMap parseRow)).2 ≤
        ((rows.drop 1).filterMap parseRow).length := by
      rw [mergeData_eq]
      exact List.length_filter_le _ _
    simp only []
    omega

/-- C10 (confirmed): every record produced by the CSV importer stores its
drawn numbers in ascending order, whatever the column order in the row. -/
theorem csv_draws_sorted (row : List String) (r : Record)
    (h : parseRow row = some r) :
    List.Sorted (· ≤ ·) r.drawNumberSize := by
  simp only [parseRow] at h
  repeat' split at h
  all_goals try exact Option.noConfusion h
  all_goals
    obtain rfl := Option.some_inj.mp h
    exact List.sorted_insertionSort _ _

/-- C10 witness: the well-formed row, whose numeric columns are in strictly
descending order, imports with its drawn numbers sorted ascending. -/
theorem csv_draws_sorted_witness :
    List.Sorted (· ≤ ·)
      (Record.drawNumberSize
        ⟨"114000001", "2025-01-01",
         [1, 2, 3, 4, 5, 6, 7, 8, 9, 10, 11, 12, 13, 14, 15, 16, 17, 18,
          19, 20], some 7⟩) :=
  csv_draws_sorted csvGoodRow _ (by decide)

end DataManager
